import Mathlib

/-!
# Verification of the Mem0 Deno SDK `MemoryClient`

Shallow embedding of the request-construction, validation and
error-normalization logic of `MemoryClient` (src: `client.ts`) and of the
`APIError` class (src: `error.ts`).

Modelling conventions:
* JavaScript values that may be a string or a number (`string | number`
  config/option fields) are modelled by `JVal`; JavaScript truthiness of
  such a value is `JVal.truthy` (`""` and `0` are falsy).
* Optional (`?:`) fields are `Option _`; an absent field is `none`.
* The options bags (`MemoryOptions` / `SearchOptions`) are modelled as a
  record holding the fields the client itself reads or writes
  (`org_id`, `project_id`, `org_name`, `project_name`, `api_version`,
  `version`, `page`, `page_size`) plus `rest`, an association list of all
  remaining caller-supplied entries, which the client only passes through.
* HTTP requests are first-class data (`Request`); issuing a request is
  modelled by returning it (or a trace of them), and the remote side is an
  oracle argument where an operation consumes responses.
* `URLSearchParams` percent-encoding is elided: parameters are rendered as
  `k=v` joined by `&` (no claim depends on the escaping of special
  characters); entry order is the field order fixed in `prepareParams`.
-/

/-- A JavaScript `string | number` value. -/
inductive JVal where
  | str (s : String)
  | num (n : Int)
deriving DecidableEq, Repr

/-- JavaScript truthiness of a `string | number` value:
`""` and `0` are falsy, everything else truthy. -/
def JVal.truthy : JVal → Bool
  | .str s => s ≠ ""
  | .num n => n ≠ 0

/-- `String(value)` coercion used by `#prepareParams`. -/
def JVal.toStr : JVal → String
  | .str s => s
  | .num n => toString n

/-- JavaScript truthiness of an optional `string | number` field
(`undefined`/`null` is falsy). -/
def optTruthy : Option JVal → Bool
  | none => false
  | some v => v.truthy

/-- JavaScript truthiness of an optional string field. -/
def strTruthy : Option String → Bool
  | none => false
  | some s => s ≠ ""

/-- `hay` contains `needle` as a contiguous substring. -/
def containsStr (hay needle : String) : Prop :=
  needle.data <:+: hay.data

instance (hay needle : String) : Decidable (containsStr hay needle) :=
  inferInstanceAs (Decidable (needle.data <:+: hay.data))

/-- Client configuration: the private fields of `MemoryClient` set by the
constructor (`#apiKey`, `#host`, `#organizationName`, `#projectName`,
`#organizationId`, `#projectId`).  `organizationId`/`projectId` are
`string | number | null`, the name pair is `string | null`. -/
structure Config where
  apiKey : String
  host : String
  organizationName : Option String
  projectName : Option String
  organizationId : Option JVal
  projectId : Option JVal
deriving DecidableEq, Repr

/-- A caller-supplied options bag (`MemoryOptions` / `SearchOptions`).
The named fields are the ones the client reads or writes itself; every
other entry (`user_id`, `limit`, `filters`, ...) is carried opaquely in
`rest` as key/value pairs and only passed through. -/
structure MemoryOptions where
  org_id : Option JVal := none
  project_id : Option JVal := none
  org_name : Option String := none
  project_name : Option String := none
  api_version : Option String := none
  version : Option JVal := none
  page : Option Int := none
  page_size : Option Int := none
  rest : List (String × JVal) := []
deriving DecidableEq, Repr

/-- Body of the `update` call: `{text?, metadata?}`.  The metadata record
is opaque key/value data. -/
structure UpdateData where
  text : Option String := none
  metadata : Option (List (String × JVal)) := none
deriving DecidableEq, Repr

/-- Payload attached to an outgoing request (`JSON.stringify` argument).
Kept structured rather than serialized: `JSON.stringify` is injective on
the shapes the client sends, and no claim depends on the raw JSON text. -/
inductive RequestBody where
  | optionsBody (o : MemoryOptions)
  | searchPayload (query : String) (o : MemoryOptions)
  | updateBody (d : UpdateData)
deriving DecidableEq, Repr

/-- An outgoing HTTP request as the client builds it. -/
structure Request where
  method : String
  url : String
  body : Option RequestBody := none
deriving DecidableEq, Repr

/-- The `APIError` class (`error.ts`): carries the HTTP status and the
message built by its constructor. -/
structure APIError where
  status : Nat
  message : String
deriving DecidableEq, Repr

/-- `new APIError(status, message)` — the constructor prefixes the message
with `API request failed with status {status}: `. -/
def APIError.make (status : Nat) (msg : String) : APIError :=
  { status := status
    message := "API request failed with status " ++ toString status ++ ": " ++ msg }

/-- An error surfaced to the SDK caller: either a local validation error
(a plain `Error` with a message, raised before any network activity) or a
typed `APIError`. -/
inductive SdkError where
  | validation (msg : String)
  | api (e : APIError)
deriving DecidableEq, Repr

/-- The observable part of an HTTP response as `#fetchWithErrorHandling`
inspects it: numeric status, status line text, and the body read as text.
(JSON parsing of success bodies is handled per endpoint.) -/
structure HttpResponse where
  status : Nat
  statusText : String
  bodyText : String
deriving DecidableEq, Repr

/-- `Response.ok` of the Fetch API: status in the range 200–299. -/
def responseOk (r : HttpResponse) : Bool :=
  200 ≤ r.status && r.status ≤ 299

/-- `#fetchWithErrorHandling`, error-normalization part: on a non-ok
response, read the body as text and throw
`new APIError(response.status, errorText || response.statusText)`;
on an ok response, hand the body to the caller (`response.json()` is kept
as the raw text here, parsed per endpoint). -/
def fetchWithErrorHandling (r : HttpResponse) : Except APIError String :=
  if responseOk r then
    .ok r.bodyText
  else
    .error (APIError.make r.status
      (if r.bodyText = "" then r.statusText else r.bodyText))

/-- `#addOrgProjectToOptions`: copy the options; if the client has both
name-pair fields, set `org_name`/`project_name`; if it has both ID-pair
fields, set `org_id`/`project_id` and delete `org_name`/`project_name`. -/
def addOrgProjectToOptions (cfg : Config) (options : MemoryOptions) :
    MemoryOptions :=
  let result := options
  let result :=
    if cfg.organizationName.isSome && cfg.projectName.isSome then
      { result with
        org_name := cfg.organizationName
        project_name := cfg.projectName }
    else result
  if cfg.organizationId.isSome && cfg.projectId.isSome then
    { result with
      org_id := cfg.organizationId
      project_id := cfg.projectId
      org_name := none
      project_name := none }
  else result

/-- Render one optional field for `#prepareParams` (absent fields are
skipped, present values pass through `String(value)`). -/
def paramOfField (key : String) : Option JVal → List (String × String)
  | none => []
  | some v => [(key, v.toStr)]

/-- `#prepareParams`: flatten the options into string key/value pairs,
skipping null/undefined values.  (`Object.entries` order is modelled as:
caller-supplied `rest` entries first, then the fields the client may have
set or rewritten; no claim depends on the order.) -/
def prepareParams (o : MemoryOptions) : List (String × String) :=
  o.rest.map (fun kv => (kv.1, kv.2.toStr))
    ++ paramOfField "api_version" (o.api_version.map JVal.str)
    ++ paramOfField "version" o.version
    ++ paramOfField "page" (o.page.map JVal.num)
    ++ paramOfField "page_size" (o.page_size.map JVal.num)
    ++ paramOfField "org_name" (o.org_name.map JVal.str)
    ++ paramOfField "project_name" (o.project_name.map JVal.str)
    ++ paramOfField "org_id" o.org_id
    ++ paramOfField "project_id" o.project_id

/-- `URLSearchParams.toString()` (percent-encoding elided). -/
def paramsToString (l : List (String × String)) : String :=
  String.intercalate "&" (l.map fun kv => kv.1 ++ "=" ++ kv.2)

/-- The parsed JSON body of a `/v1/ping/` response, as `ping` types it:
either not an object at all (`null`, a primitive, ...) or an object with
optional `status`, `message`, `org_id`, `project_id` string fields. -/
inductive PingBody where
  | invalid
  | obj (status : Option String) (message : Option String)
        (org_id : Option String) (project_id : Option String)
deriving DecidableEq, Repr

/-- `ping`, response-handling part: a non-object body raises
`APIError(500, ...)`; a body whose `status` field is not `"ok"` raises
`APIError(401, response.message ?? "API Key is invalid")`; otherwise the
config learns `org_id`/`project_id` from the response — each only when the
response value is truthy and the corresponding config field is falsy. -/
def pingStep (cfg : Config) (body : PingBody) : Except APIError Config :=
  match body with
  | .invalid => .error (APIError.make 500 "Invalid response format from ping endpoint")
  | .obj status message org_id project_id =>
    if status ≠ some "ok" then
      .error (APIError.make 401 (message.getD "API Key is invalid"))
    else
      let cfg :=
        if strTruthy org_id && !optTruthy cfg.organizationId then
          { cfg with organizationId := org_id.map JVal.str }
        else cfg
      let cfg :=
        if strTruthy project_id && !optTruthy cfg.projectId then
          { cfg with projectId := project_id.map JVal.str }
        else cfg
      .ok cfg

/-- `update(memoryId, data)`: if neither `text` nor `metadata` is provided
the call throws a plain `Error` before any network activity; otherwise it
issues `PUT {host}/v1/memories/{memoryId}/` with `data` as the JSON body. -/
def «update» (cfg : Config) (memoryId : String) (data : UpdateData) :
    Except SdkError Request :=
  if data.text = none && data.metadata = none then
    .error (.validation "Either text or metadata must be provided for update.")
  else
    .ok { method := "PUT"
          url := cfg.host ++ "/v1/memories/" ++ memoryId ++ "/"
          body := some (.updateBody data) }

/-- The raw pagination fragment of `getAll`:
`` `page=${page}&page_size=${page_size}` `` when `page && page_size` is
truthy (both present and non-zero), else the empty string. -/
def paginationFragment (page page_size : Option Int) : String :=
  match page, page_size with
  | some p, some s =>
    if p ≠ 0 && s ≠ 0 then
      "page=" ++ toString p ++ "&page_size=" ++ toString s
    else ""
  | _, _ => ""

/-- `getAll(options)`: destructure `api_version`, `page`, `page_size` out
of the options, merge the org/project scope into the remainder, and build
either a v2 `POST {host}/v2/memories/` with the options as JSON body, or a
v1 `GET {host}/v1/memories/?{params}`; the pagination fragment is appended
to the URL in both modes when non-empty. -/
def getAll (cfg : Config) (options : MemoryOptions) : Request :=
  let api_version := options.api_version
  let otherOptions :=
    { options with api_version := none, page := none, page_size := none }
  let opts := addOrgProjectToOptions cfg otherOptions
  let paginationParams := paginationFragment options.page options.page_size
  if api_version = some "v2" then
    { method := "POST"
      url :=
        if paginationParams ≠ "" then
          cfg.host ++ "/v2/memories/?" ++ paginationParams
        else
          cfg.host ++ "/v2/memories/"
      body := some (.optionsBody opts) }
  else
    let params := paramsToString (prepareParams opts)
    { method := "GET"
      url :=
        if paginationParams ≠ "" then
          cfg.host ++ "/v1/memories/?" ++ params ++ "&" ++ paginationParams
        else
          cfg.host ++ "/v1/memories/?" ++ params
      body := none }

/-- `search(query, options)`: destructure `api_version` out of the
options, merge the org/project scope, build the payload
`{query, ...opts}`, and `POST` it to `/v2/memories/search/` when
`api_version === "v2"`, else to `/v1/memories/search/`. -/
def search (cfg : Config) (query : String) (options : MemoryOptions) :
    Request :=
  let api_version := options.api_version
  let otherOptions := { options with api_version := none }
  let opts := addOrgProjectToOptions cfg otherOptions
  let endpoint :=
    if api_version = some "v2" then "/v2/memories/search/"
    else "/v1/memories/search/"
  { method := "POST"
    url := cfg.host ++ endpoint
    body := some (.searchPayload query opts) }

/-- A user/entity record as returned inside the `AllUsers` envelope
(`types.ts`, `User`): the fields `deleteUsers` reads are `type` and
`name`; the rest ride along. -/
structure User where
  id : String
  name : String
  total_memories : Nat
  owner : String
  type : String
deriving DecidableEq, Repr

/-- The paginated entity envelope returned by `users()`
(`types.ts`, `AllUsers`). -/
structure AllUsers where
  count : Nat
  results : List User
  next : Option String := none
  previous : Option String := none
deriving DecidableEq, Repr

/-- A `{type, name}` deletion target built by `deleteUsers`. -/
structure Entity where
  type : String
  name : String
deriving DecidableEq, Repr

/-- The identifier bag accepted by `deleteUsers`. -/
structure DeleteUsersParams where
  user_id : Option String := none
  agent_id : Option String := none
  app_id : Option String := none
  run_id : Option String := none
deriving DecidableEq, Repr

/-- The `DELETE {host}/v2/entities/{type}/{name}/?{queryParams}` request
issued for one entity inside the `deleteUsers` loop. -/
def entityDeleteRequest (cfg : Config) (queryParams : String) (e : Entity) :
    Request :=
  { method := "DELETE"
    url := cfg.host ++ "/v2/entities/" ++ e.type ++ "/" ++ e.name ++ "/?"
             ++ queryParams }

/-- The sequential `for (const entity of toDelete)` loop of `deleteUsers`:
issue one delete per entity in order, consulting the remote oracle `del`;
stop at the first failure.  Returns the entities for which a request was
issued (in order) and the first error, if any. -/
def deleteLoop (del : Entity → Except APIError Unit) :
    List Entity → List Entity × Option APIError
  | [] => ([], none)
  | e :: rest =>
    match del e with
    | .error err => ([e], some err)
    | .ok _ =>
      let r := deleteLoop del rest
      (e :: r.1, r.2)

instance {ε α : Type} [DecidableEq ε] [DecidableEq α] :
    DecidableEq (Except ε α) := fun a b =>
  match a, b with
  | .error x, .error y =>
    if h : x = y then .isTrue (by rw [h])
    else .isFalse (by intro hc; cases hc; exact h rfl)
  | .error _, .ok _ => .isFalse (by intro hc; cases hc)
  | .ok _, .error _ => .isFalse (by intro hc; cases hc)
  | .ok x, .ok y =>
    if h : x = y then .isTrue (by rw [h])
    else .isFalse (by intro hc; cases hc; exact h rfl)

/-- The observable outcome of one `deleteUsers` call: whether the listing
endpoint was hit, the delete requests issued (in order), and the returned
value or the propagated error. -/
structure DeleteUsersOutcome where
  listingIssued : Bool
  deletesIssued : List Request
  result : Except SdkError String
deriving DecidableEq, Repr

/-- Tail of `deleteUsers` after `toDelete` is chosen: the zero-length
check, the query-parameter construction, the sequential delete loop, and
the success message. -/
def deleteUsersFinish (cfg : Config) (del : Entity → Except APIError Unit)
    (hadIdentifier listingIssued : Bool) (toDelete : List Entity) :
    DeleteUsersOutcome :=
  if toDelete.length = 0 then
    { listingIssued := listingIssued
      deletesIssued := []
      result := .error (.validation "No entities to delete") }
  else
    let requestOpts := addOrgProjectToOptions cfg {}
    let queryParams := paramsToString (prepareParams requestOpts)
    let r := deleteLoop del toDelete
    let issued := r.1.map (entityDeleteRequest cfg queryParams)
    match r.2 with
    | some err =>
      { listingIssued := listingIssued
        deletesIssued := issued
        result := .error (.api err) }
    | none =>
      { listingIssued := listingIssued
        deletesIssued := issued
        result := .ok (if hadIdentifier then "Entity deleted successfully."
                       else "All users, agents, apps and runs deleted.") }

/-- `deleteUsers(params)`: pick the deletion targets by the truthiness
chain `user_id` / `agent_id` / `app_id` / `run_id`; with none of them
truthy, enumerate all entities via `users()` (outcome supplied by the
`listing` oracle) and target each one.  Then run `deleteUsersFinish`.
A failing listing call propagates its `APIError` directly. -/
def deleteUsers (cfg : Config) (params : DeleteUsersParams)
    (listing : Except APIError AllUsers)
    (del : Entity → Except APIError Unit) : DeleteUsersOutcome :=
  let hadIdentifier := strTruthy params.user_id || strTruthy params.agent_id
    || strTruthy params.app_id || strTruthy params.run_id
  if strTruthy params.user_id then
    deleteUsersFinish cfg del hadIdentifier false
      [{ type := "user", name := params.user_id.getD "" }]
  else if strTruthy params.agent_id then
    deleteUsersFinish cfg del hadIdentifier false
      [{ type := "agent", name := params.agent_id.getD "" }]
  else if strTruthy params.app_id then
    deleteUsersFinish cfg del hadIdentifier false
      [{ type := "app", name := params.app_id.getD "" }]
  else if strTruthy params.run_id then
    deleteUsersFinish cfg del hadIdentifier false
      [{ type := "run", name := params.run_id.getD "" }]
  else
    match listing with
    | .error e =>
      { listingIssued := true
        deletesIssued := []
        result := .error (.api e) }
    | .ok entities =>
      deleteUsersFinish cfg del hadIdentifier true
        (entities.results.map fun entity =>
          { type := entity.type, name := entity.name })

/-- The public operations of `MemoryClient` other than `ping`, with the
arguments relevant to each (opaque payloads are key/value lists). -/
inductive ClientOp where
  | add (messages : List (String × String)) (options : MemoryOptions)
  | update (memoryId : String) (data : UpdateData)
  | get (memoryId : String)
  | getAll (options : MemoryOptions)
  | search (query : String) (options : MemoryOptions)
  | delete (memoryId : String)
  | deleteAll (options : MemoryOptions)
  | history (memoryId : String)
  | users
  | deleteUser (entity_id : Int) (entity_type : Option String)
  | deleteUsers (params : DeleteUsersParams)
  | batchUpdate (memories : List (String × String))
  | batchDelete (memoryIds : List String)
  | getProject (fields : List String)
  | updateProject (prompts : List (String × JVal))
  | getWebhooks (projectId : Option String)
  | createWebhook (payload : List (String × JVal))
  | updateWebhook (payload : List (String × JVal))
  | deleteWebhook (webhookId : String)
  | feedback (payload : List (String × JVal))
  | createMemoryExport (payload : List (String × JVal))
  | getMemoryExport (payload : List (String × JVal))
deriving DecidableEq, Repr

/-- The client configuration after running a public operation other than
`ping`: none of these method bodies contains an assignment to any private
`#`-field of the client (they only read `#host`, `#organizationId`, ...),
so each arm returns the configuration unchanged — whatever the arguments
and whatever the network returns. -/
def configAfter (cfg : Config) : ClientOp → Config
  | .add _ _ => cfg
  | .update _ _ => cfg
  | .get _ => cfg
  | .getAll _ => cfg
  | .search _ _ => cfg
  | .delete _ => cfg
  | .deleteAll _ => cfg
  | .history _ => cfg
  | .users => cfg
  | .deleteUser _ _ => cfg
  | .deleteUsers _ => cfg
  | .batchUpdate _ => cfg
  | .batchDelete _ => cfg
  | .getProject _ => cfg
  | .updateProject _ => cfg
  | .getWebhooks _ => cfg
  | .createWebhook _ => cfg
  | .updateWebhook _ => cfg
  | .deleteWebhook _ => cfg
  | .feedback _ => cfg
  | .createMemoryExport _ => cfg
  | .getMemoryExport _ => cfg

/-- The `{type, name}` projection applied to each enumerated entity in the
bulk path of `deleteUsers`. -/
def toEntity (u : User) : Entity :=
  { type := u.type, name := u.name }

/-- A concrete unscoped client configuration (defaults of the
constructor), used to evaluate the definitions on concrete inputs. -/
def cfgEx : Config :=
  { apiKey := "test-key"
    host := "https://api.mem0.ai"
    organizationName := none
    projectName := none
    organizationId := none
    projectId := none }

/-- A remote oracle whose delete endpoint always succeeds. -/
def allOkDel : Entity → Except APIError Unit := fun _ => .ok ()

/-- A remote oracle whose delete endpoint fails on the entity named
`"bob"` with HTTP 500 and succeeds on everything else. -/
def failBobDel : Entity → Except APIError Unit := fun e =>
  if e.name = "bob" then .error (APIError.make 500 "boom") else .ok ()

/-- An options bag carrying only the `version` alias (no `api_version`). -/
def optsVersionV2 : MemoryOptions := { version := some (.str "v2") }

/-- A configuration whose `organizationId` was explicitly set to the empty
string (a set, but JavaScript-falsy, value). -/
def cfgEmptyOrg : Config :=
  { apiKey := "test-key"
    host := "https://api.mem0.ai"
    organizationName := none
    projectName := none
    organizationId := some (.str "")
    projectId := none }

/-- Three concrete enumerated entities for exercising the bulk path of
`deleteUsers`; the middle one is the `failBobDel` failure point. -/
def userAlice : User :=
  { id := "1", name := "alice", total_memories := 2, owner := "o", type := "user" }

def userBob : User :=
  { id := "2", name := "bob", total_memories := 1, owner := "o", type := "agent" }

def userCarol : User :=
  { id := "3", name := "carol", total_memories := 4, owner := "o", type := "user" }

theorem containsStr_of_append (pre needle post : String) :
    containsStr (pre ++ needle ++ post) needle :=
  ⟨pre.data, post.data, by simp⟩

theorem containsStr_suffix (pre needle : String) :
    containsStr (pre ++ needle) needle :=
  ⟨pre.data, [], by simp⟩

theorem APIError.make_contains (status : Nat) (msg : String) :
    containsStr (APIError.make status msg).message msg :=
  containsStr_suffix _ msg

/-- Claim C1: whenever the HTTP round-trip completes with a non-success
status `S` and response body text `T`, the call raises the typed API error
whose `status` field equals `S` and whose message contains `T`, or
contains the HTTP status line when `T` is empty. -/
theorem fetch_nonsuccess_raises_api_error (r : HttpResponse)
    (h : responseOk r = false) :
    ∃ e, fetchWithErrorHandling r = .error e ∧ e.status = r.status ∧
      containsStr e.message
        (if r.bodyText = "" then r.statusText else r.bodyText) := by
  refine ⟨APIError.make r.status
    (if r.bodyText = "" then r.statusText else r.bodyText), ?_, rfl, ?_⟩
  · simp [fetchWithErrorHandling, h]
  · exact APIError.make_contains _ _

/-- Witness for C1 at a concrete 404 response with a non-empty body. -/
theorem fetch_nonsuccess_raises_api_error_witness :
    ∃ e, fetchWithErrorHandling
        { status := 404, statusText := "Not Found", bodyText := "resource missing" }
        = .error e ∧ e.status = 404 ∧
      containsStr e.message
        (if ("resource missing" : String) = "" then "Not Found" else "resource missing") :=
  fetch_nonsuccess_raises_api_error
    { status := 404, statusText := "Not Found", bodyText := "resource missing" }
    (by decide)

/-- Claim C2: when the client is configured with both `organizationId` and
`projectId` and also with both `organizationName` and `projectName`, the
options merged into any outgoing request contain `org_id` and `project_id`
and contain neither `org_name` nor `project_name` — for every options bag,
even one that itself carried name fields. -/
theorem addOrgProject_id_pair_wins (cfg : Config) (o : MemoryOptions)
    (h1 : cfg.organizationId.isSome = true) (h2 : cfg.projectId.isSome = true)
    (h3 : cfg.organizationName.isSome = true) (h4 : cfg.projectName.isSome = true) :
    (addOrgProjectToOptions cfg o).org_id = cfg.organizationId ∧
    (addOrgProjectToOptions cfg o).project_id = cfg.projectId ∧
    (addOrgProjectToOptions cfg o).org_name = none ∧
    (addOrgProjectToOptions cfg o).project_name = none := by
  simp [addOrgProjectToOptions, h1, h2, h3, h4]

/-- Witness for C2 at a fully scoped configuration and an options bag that
itself carries a name pair. -/
theorem addOrgProject_id_pair_wins_witness :
    (addOrgProjectToOptions
        { apiKey := "k", host := "h", organizationName := some "acme"
          projectName := some "proj", organizationId := some (.str "org_1")
          projectId := some (.num 7) }
        { org_name := some "stale", project_name := some "stale"
          rest := [("user_id", .str "alice")] }).org_id = some (.str "org_1") ∧
    (addOrgProjectToOptions
        { apiKey := "k", host := "h", organizationName := some "acme"
          projectName := some "proj", organizationId := some (.str "org_1")
          projectId := some (.num 7) }
        { org_name := some "stale", project_name := some "stale"
          rest := [("user_id", .str "alice")] }).project_id = some (.num 7) ∧
    (addOrgProjectToOptions
        { apiKey := "k", host := "h", organizationName := some "acme"
          projectName := some "proj", organizationId := some (.str "org_1")
          projectId := some (.num 7) }
        { org_name := some "stale", project_name := some "stale"
          rest := [("user_id", .str "alice")] }).org_name = none ∧
    (addOrgProjectToOptions
        { apiKey := "k", host := "h", organizationName := some "acme"
          projectName := some "proj", organizationId := some (.str "org_1")
          projectId := some (.num 7) }
        { org_name := some "stale", project_name := some "stale"
          rest := [("user_id", .str "alice")] }).project_name = none :=
  addOrgProject_id_pair_wins _ _ (by decide) (by decide) (by decide) (by decide)

/-- Claim C5: when the HTTP call succeeds but the parsed body's `status`
field is not `"ok"`, `ping` raises an API error with status 401 whose
message contains the server-supplied message (or the fallback when the
server supplied none); when the `status` field is `"ok"`, `ping` returns
without error. -/
theorem ping_status_check (cfg : Config)
    (status message org_id project_id : Option String) :
    if status = some "ok" then
      (pingStep cfg (.obj status message org_id project_id)).isOk = true
    else
      ∃ e, pingStep cfg (.obj status message org_id project_id) = .error e ∧
        e.status = 401 ∧
        containsStr e.message (message.getD "API Key is invalid") := by
  split
  · next hok =>
    simp only [pingStep, hok, ne_eq, not_true_eq_false, if_false]
    split <;> split <;> rfl
  · next hne =>
    refine ⟨APIError.make 401 (message.getD "API Key is invalid"), ?_, rfl, ?_⟩
    · simp [pingStep, hne]
    · exact APIError.make_contains _ _

/-- Claim C8: `update(id, data)` with neither `text` nor `metadata` raises
a local validation error without any network call; with at least one of
the two fields present no local validation error is raised and the HTTP
request is built and issued. -/
theorem update_requires_text_or_metadata (cfg : Config) (memoryId : String)
    (data : UpdateData) :
    if data.text = none ∧ data.metadata = none then
      «update» cfg memoryId data =
        .error (.validation "Either text or metadata must be provided for update.")
    else
      ∃ req, «update» cfg memoryId data = .ok req := by
  split
  · next h => simp [«update», h.1, h.2]
  · next h =>
    have hb : (decide (data.text = none) && decide (data.metadata = none)) = false := by
      rcases Decidable.em (data.text = none) with ht | ht
      · rcases Decidable.em (data.metadata = none) with hm | hm
        · exact absurd ⟨ht, hm⟩ h
        · simp [hm]
      · simp [ht]
    exact ⟨{ method := "PUT"
             url := cfg.host ++ "/v1/memories/" ++ memoryId ++ "/"
             body := some (.updateBody data) },
           by simp [«update», hb]⟩

theorem deleteLoop_all_ok (del : Entity → Except APIError Unit)
    (l : List Entity) (hok : ∀ x ∈ l, del x = .ok ()) :
    deleteLoop del l = (l, none) := by
  induction l with
  | nil => rfl
  | cons a t ih =>
    have ha : del a = .ok () := hok a (by simp)
    simp [deleteLoop, ha, ih fun x hx => hok x (by simp [hx])]

theorem deleteLoop_first_error (del : Entity → Except APIError Unit)
    (pre post : List Entity) (e : Entity) (err : APIError)
    (hok : ∀ x ∈ pre, del x = .ok ()) (herr : del e = .error err) :
    deleteLoop del (pre ++ e :: post) = (pre ++ [e], some err) := by
  induction pre with
  | nil => simp [deleteLoop, herr]
  | cons a t ih =>
    have ha : del a = .ok () := hok a (by simp)
    simp [deleteLoop, ha, ih fun x hx => hok x (by simp [hx])]

/-- Claim C7: `deleteUsers` with none of the four identifiers set, when
the entity listing returns zero results, raises the local validation error
`"No entities to delete"` without issuing any delete request. -/
theorem deleteUsers_empty_enumeration (cfg : Config)
    (del : Entity → Except APIError Unit) (n : Nat)
    (next previous : Option String) :
    deleteUsers cfg {} (.ok { count := n, results := [], next := next
                              previous := previous }) del =
      { listingIssued := true
        deletesIssued := []
        result := .error (.validation "No entities to delete") } := by
  rfl

/-- Claim C6: in the bulk path of `deleteUsers` (no identifier given), one
delete request is issued per entity returned by the listing call,
sequentially in the order returned; when the delete of entity `u` fails
(after every entity in `pre` succeeded), the error propagates immediately
as-is, the requests issued are exactly those for `pre` followed by `u` (so
the prior deletions stay applied), and no request is issued for the
entities in `post`. -/
theorem deleteUsers_bulk_stops_at_first_failure (cfg : Config)
    (listing : AllUsers) (del : Entity → Except APIError Unit)
    (pre post : List User) (u : User) (err : APIError)
    (hsplit : listing.results = pre ++ u :: post)
    (hok : ∀ x ∈ pre, del (toEntity x) = .ok ())
    (herr : del (toEntity u) = .error err) :
    (deleteUsers cfg {} (.ok listing) del).listingIssued = true ∧
    (deleteUsers cfg {} (.ok listing) del).deletesIssued =
      (pre.map toEntity ++ [toEntity u]).map
        (entityDeleteRequest cfg
          (paramsToString (prepareParams (addOrgProjectToOptions cfg {})))) ∧
    (deleteUsers cfg {} (.ok listing) del).result = .error (.api err) := by
  have hloop : deleteLoop del (pre.map toEntity ++ toEntity u :: post.map toEntity)
      = (pre.map toEntity ++ [toEntity u], some err) := by
    refine deleteLoop_first_error del _ _ _ _ ?_ herr
    intro x hx
    rcases List.mem_map.mp hx with ⟨y, hy, rfl⟩
    exact hok y hy
  have hbulk : deleteUsers cfg {} (.ok listing) del
      = deleteUsersFinish cfg del false true
          (listing.results.map fun entity =>
            ({ type := entity.type, name := entity.name } : Entity)) := rfl
  have hmap : listing.results.map
      (fun entity => ({ type := entity.type, name := entity.name } : Entity))
      = pre.map toEntity ++ toEntity u :: post.map toEntity := by
    rw [hsplit, List.map_append, List.map_cons]
    rfl
  have hne : ¬ (pre.map toEntity ++ toEntity u :: post.map toEntity).length = 0 := by
    simp
  rw [hbulk, hmap]
  simp only [deleteUsersFinish, hloop, if_neg hne]
  exact ⟨trivial, trivial, trivial⟩

/-- Witness for C6: three enumerated entities, the second delete fails;
exactly the first two delete requests are issued and the loop error
propagates. -/
theorem deleteUsers_bulk_stops_at_first_failure_witness :
    (deleteUsers cfgEx {}
        (.ok { count := 3, results := [userAlice, userBob, userCarol] })
        failBobDel).listingIssued = true ∧
    (deleteUsers cfgEx {}
        (.ok { count := 3, results := [userAlice, userBob, userCarol] })
        failBobDel).deletesIssued =
      ([userAlice].map toEntity ++ [toEntity userBob]).map
        (entityDeleteRequest cfgEx
          (paramsToString (prepareParams (addOrgProjectToOptions cfgEx {})))) ∧
    (deleteUsers cfgEx {}
        (.ok { count := 3, results := [userAlice, userBob, userCarol] })
        failBobDel).result = .error (.api (APIError.make 500 "boom")) :=
  deleteUsers_bulk_stops_at_first_failure cfgEx
    { count := 3, results := [userAlice, userBob, userCarol] }
    failBobDel [userAlice] [userCarol] userBob (APIError.make 500 "boom")
    (by decide) (by decide) (by decide)

theorem deleteUsersFinish_singleton (cfg : Config)
    (del : Entity → Except APIError Unit) (hid li : Bool) (t : Entity) :
    (deleteUsersFinish cfg del hid li [t]).listingIssued = li ∧
    (deleteUsersFinish cfg del hid li [t]).deletesIssued =
      [entityDeleteRequest cfg
        (paramsToString (prepareParams (addOrgProjectToOptions cfg {}))) t] := by
  have h1 : ¬ ([t] : List Entity).length = 0 := by simp
  cases hdel : del t <;> simp [deleteUsersFinish, deleteLoop, hdel, h1]

/-- Counterexample to claim C10: with `user_id` present as the empty
string and `agent_id` present as `"alice"`, the single delete request
targets the agent, not the user — precedence follows JavaScript
truthiness, not presence, so the claim as stated is false. -/
theorem deleteUsers_precedence_counterexample :
    (deleteUsers cfgEx { user_id := some "", agent_id := some "alice" }
        (.ok { count := 0, results := [] }) allOkDel).deletesIssued =
      [entityDeleteRequest cfgEx "" { type := "agent", name := "alice" }] ∧
    (deleteUsers cfgEx { user_id := some "", agent_id := some "alice" }
        (.ok { count := 0, results := [] }) allOkDel).deletesIssued ≠
      [entityDeleteRequest cfgEx "" { type := "user", name := "" }] := by
  exact ⟨by decide, by decide⟩

/-- Claim C10 (amended): when at least one of the four identifiers is
truthy (present and non-empty), exactly one delete request is issued and
no listing request; the target is chosen by the precedence `user_id` over
`agent_id` over `app_id` over `run_id` among the truthy identifiers, and
falsy (absent or empty-string) identifiers are skipped. -/
theorem deleteUsers_truthy_precedence (cfg : Config) (p : DeleteUsersParams)
    (listing : Except APIError AllUsers) (del : Entity → Except APIError Unit)
    (h : (strTruthy p.user_id || strTruthy p.agent_id
          || strTruthy p.app_id || strTruthy p.run_id) = true) :
    (deleteUsers cfg p listing del).listingIssued = false ∧
    (deleteUsers cfg p listing del).deletesIssued =
      [entityDeleteRequest cfg
        (paramsToString (prepareParams (addOrgProjectToOptions cfg {})))
        (if strTruthy p.user_id then { type := "user", name := p.user_id.getD "" }
         else if strTruthy p.agent_id then { type := "agent", name := p.agent_id.getD "" }
         else if strTruthy p.app_id then { type := "app", name := p.app_id.getD "" }
         else { type := "run", name := p.run_id.getD "" })] := by
  by_cases hu : strTruthy p.user_id = true
  · simp only [deleteUsers, hu, if_true, if_pos]
    refine ⟨(deleteUsersFinish_singleton cfg del _ false _).1, ?_⟩
    rw [(deleteUsersFinish_singleton cfg del _ false _).2]
  · by_cases ha : strTruthy p.agent_id = true
    · simp only [deleteUsers, hu, ha, if_true, if_false, Bool.false_eq_true]
      refine ⟨(deleteUsersFinish_singleton cfg del _ false _).1, ?_⟩
      rw [(deleteUsersFinish_singleton cfg del _ false _).2]
    · by_cases hp : strTruthy p.app_id = true
      · simp only [deleteUsers, hu, ha, hp, if_true, if_false, Bool.false_eq_true]
        refine ⟨(deleteUsersFinish_singleton cfg del _ false _).1, ?_⟩
        rw [(deleteUsersFinish_singleton cfg del _ false _).2]
      · have hr : strTruthy p.run_id = true := by
          simp [hu, ha, hp] at h
          exact h
        simp only [deleteUsers, hu, ha, hp, hr, if_true, if_false, Bool.false_eq_true]
        refine ⟨(deleteUsersFinish_singleton cfg del _ false _).1, ?_⟩
        rw [(deleteUsersFinish_singleton cfg del _ false _).2]

/-- Witness for the amended C10 at a bag with two truthy identifiers:
`user_id` wins, one request, no listing call. -/
theorem deleteUsers_truthy_precedence_witness :
    (deleteUsers cfgEx { user_id := some "u", agent_id := some "a" }
        (.ok { count := 0, results := [] }) allOkDel).listingIssued = false ∧
    (deleteUsers cfgEx { user_id := some "u", agent_id := some "a" }
        (.ok { count := 0, results := [] }) allOkDel).deletesIssued =
      [{ method := "DELETE", url := "https://api.mem0.ai/v2/entities/user/u/?"
         body := none }] := by
  have h := deleteUsers_truthy_precedence cfgEx
    { user_id := some "u", agent_id := some "a" }
    (.ok { count := 0, results := [] }) allOkDel (by decide)
  exact ⟨h.1, h.2.trans (by decide)⟩

theorem paginationFragment_none_left (s : Option Int) :
    paginationFragment none s = "" := by
  cases s <;> rfl

theorem paginationFragment_none_right (p : Option Int) :
    paginationFragment p none = "" := by
  cases p <;> rfl

theorem paginationFragment_zero_left (s : Option Int) :
    paginationFragment (some 0) s = "" := by
  cases s <;> simp [paginationFragment]

theorem paginationFragment_zero_right (p : Option Int) :
    paginationFragment p (some 0) = "" := by
  cases p <;> simp [paginationFragment]

theorem ite_org_update_projectId (c : Prop) [Decidable c] (cfg : Config)
    (x : Option JVal) :
    (if c then { cfg with organizationId := x } else cfg).projectId
      = cfg.projectId := by
  split <;> rfl

theorem pageFragment_ne_empty (p s : Int) :
    ("page=" ++ toString p ++ "&page_size=" ++ toString s) ≠ "" := by
  intro h
  have hl := congrArg String.length h
  rw [String.length_append, String.length_append, String.length_append] at hl
  have h5 : ("page=" : String).length = 5 := rfl
  have h0 : ("" : String).length = 0 := rfl
  omega

theorem stripPagination_idem (o : MemoryOptions) :
    ({ ({ o with page := none, page_size := none } : MemoryOptions) with
        api_version := none, page := none, page_size := none } : MemoryOptions)
      = { o with api_version := none, page := none, page_size := none } := by
  cases o
  rfl

/-- Counterexample to claim C4: with both pagination options present but
`page = 0` (a JavaScript-falsy value), `getAll` appends no pagination
fragment — the fragment is keyed on truthiness, not presence, so the claim
as stated is false. -/
theorem getAll_pagination_counterexample :
    (getAll cfgEx { page := some 0, page_size := some 10 }).url
        = "https://api.mem0.ai/v1/memories/?" ∧
    ¬ containsStr (getAll cfgEx { page := some 0, page_size := some 10 }).url
        "page=0&page_size=10" := by
  exact ⟨by decide, by decide⟩

/-- Claim C4 (amended): in both v1 and v2 modes, the fragment
`page=<n>&page_size=<m>` is appended to the URL verbatim exactly when
`page` and `page_size` are both present with non-zero (truthy) values;
when either is absent or zero, the URL is the same as with no pagination
options at all. -/
theorem getAll_pagination_amended (cfg : Config) (o : MemoryOptions) :
    (∃ p s, o.page = some p ∧ p ≠ 0 ∧ o.page_size = some s ∧ s ≠ 0 ∧
      ∃ base, (getAll cfg o).url
          = base ++ ("page=" ++ toString p ++ "&page_size=" ++ toString s))
    ∨ (((o.page = none ∨ o.page = some 0) ∨
        (o.page_size = none ∨ o.page_size = some 0)) ∧
       (getAll cfg o).url
          = (getAll cfg { o with page := none, page_size := none }).url) := by
  rcases hp : o.page with _ | p
  · right
    refine ⟨Or.inl (Or.inl rfl), ?_⟩
    simp only [getAll, hp, paginationFragment_none_left,
      paginationFragment_none_right, stripPagination_idem]
  · by_cases hp0 : p = 0
    · right
      subst hp0
      refine ⟨Or.inl (Or.inr rfl), ?_⟩
      simp only [getAll, hp, paginationFragment_zero_left,
        paginationFragment_none_right, stripPagination_idem]
    · rcases hs : o.page_size with _ | s
      · right
        refine ⟨Or.inr (Or.inl rfl), ?_⟩
        simp only [getAll, hp, hs, paginationFragment_none_right,
          stripPagination_idem]
      · by_cases hs0 : s = 0
        · right
          subst hs0
          refine ⟨Or.inr (Or.inr rfl), ?_⟩
          simp only [getAll, hp, hs, paginationFragment_zero_right,
            paginationFragment_none_right, stripPagination_idem]
        · left
          refine ⟨p, s, rfl, hp0, rfl, hs0, ?_⟩
          have hfrag : paginationFragment (some p) (some s)
              = "page=" ++ toString p ++ "&page_size=" ++ toString s := by
            simp [paginationFragment, hp0, hs0]
          by_cases hv : o.api_version = some "v2"
          · exact ⟨cfg.host ++ "/v2/memories/?", by
              simp only [getAll, hv, if_true, hp, hs, hfrag]
              rw [if_pos (pageFragment_ne_empty p s)]⟩
          · exact ⟨cfg.host ++ "/v1/memories/?"
                ++ paramsToString (prepareParams (addOrgProjectToOptions cfg
                  { o with api_version := none, page := none, page_size := none }))
                ++ "&", by
              simp only [getAll, hv, if_false, hp, hs, hfrag]
              rw [if_pos (pageFragment_ne_empty p s)]⟩

/-- Counterexample to claim C3: the alias `version` is not consulted for
wire-format selection.  With `version = "v2"` and no `api_version`,
`getAll` still issues a v1 `GET` to `/v1/memories/` (with `version`
merely flattened into the query string) and `search` still posts to
`/v1/memories/search/` — the claim predicts a `POST` to the `/v2/...`
path for this input. -/
theorem version_alias_not_consulted_counterexample :
    (getAll cfgEx optsVersionV2).method = "GET" ∧
    (getAll cfgEx optsVersionV2).url = "https://api.mem0.ai/v1/memories/?version=v2" ∧
    ¬ containsStr (getAll cfgEx optsVersionV2).url "/v2/" ∧
    (search cfgEx "q" optsVersionV2).url = "https://api.mem0.ai/v1/memories/search/" := by
  exact ⟨by decide, by decide, by decide, by decide⟩

/-- Claim C3 (amended): the option `api_version` alone selects the wire
format for `getAll` and `search` (its documented alias `version` is not
consulted): value `"v2"` produces a `POST` to the `/v2/...` path — for
`getAll` with the full processed options object as JSON body — otherwise
the v1 format is used: for `getAll` a `GET` to `/v1/memories/` with the
options flattened into the query string, for `search` a `POST` to
`/v1/memories/search/`. -/
theorem api_version_selects_wire_format (cfg : Config) (q : String)
    (o : MemoryOptions) :
    (if o.api_version = some "v2" then
       (getAll cfg o).method = "POST" ∧
       (∃ suffix, (getAll cfg o).url = cfg.host ++ ("/v2/memories/" ++ suffix)) ∧
       (getAll cfg o).body = some (.optionsBody (addOrgProjectToOptions cfg
         { o with api_version := none, page := none, page_size := none }))
     else
       (getAll cfg o).method = "GET" ∧
       (∃ qs, (getAll cfg o).url = cfg.host ++ "/v1/memories/?" ++ qs) ∧
       (getAll cfg o).body = none) ∧
    (search cfg q o).method = "POST" ∧
    (search cfg q o).url = cfg.host ++
      (if o.api_version = some "v2" then "/v2/memories/search/"
       else "/v1/memories/search/") ∧
    (search cfg q o).body = some (.searchPayload q
      (addOrgProjectToOptions cfg { o with api_version := none })) := by
  refine ⟨?_, rfl, rfl, rfl⟩
  split
  · next hv =>
    refine ⟨by simp [getAll, hv], ?_, by simp [getAll, hv]⟩
    by_cases hf : paginationFragment o.page o.page_size = ""
    · exact ⟨"", by simp [getAll, hv, hf]⟩
    · refine ⟨"?" ++ paginationFragment o.page o.page_size, ?_⟩
      have key : ∀ t u : String,
          t ++ "/v2/memories/?" ++ u = t ++ ("/v2/memories/" ++ ("?" ++ u)) := by
        intro t u
        rw [show ("/v2/memories/?" : String) = "/v2/memories/" ++ "?" by decide,
          String.append_assoc, String.append_assoc]
      simp only [getAll, hv, if_true, if_pos hf]
      exact key cfg.host _
  · next hv =>
    refine ⟨by simp [getAll, hv], ?_, by simp [getAll, hv]⟩
    by_cases hf : paginationFragment o.page o.page_size = ""
    · exact ⟨paramsToString (prepareParams (addOrgProjectToOptions cfg
        { o with api_version := none, page := none, page_size := none })),
        by simp [getAll, hv, hf]⟩
    · exact ⟨paramsToString (prepareParams (addOrgProjectToOptions cfg
          { o with api_version := none, page := none, page_size := none }))
          ++ "&" ++ paginationFragment o.page o.page_size,
        by simp [getAll, hv, hf, String.append_assoc]⟩

/-- Counterexample to claim C9: with `organizationId` set (to the empty
string, a present but JavaScript-falsy value), a successful `ping`
response carrying `org_id` overwrites it — so "assigns only when it was
not already set" is false as stated; the learning is keyed on falsiness,
not absence. -/
theorem ping_overwrites_falsy_org_counterexample :
    cfgEmptyOrg.organizationId.isSome = true ∧
    pingStep cfgEmptyOrg (.obj (some "ok") none (some "org_123") none)
      = .ok { cfgEmptyOrg with organizationId := some (.str "org_123") } ∧
    ({ cfgEmptyOrg with organizationId := some (.str "org_123") } : Config).organizationId
      ≠ cfgEmptyOrg.organizationId := by
  exact ⟨by decide, by decide, by decide⟩

/-- Claim C9 (amended): every public operation other than `ping` leaves
the whole client configuration unchanged; a successful `ping` leaves
`apiKey`, `host` and the name pair unchanged and mutates at most
`organizationId` and `projectId`, assigning each only when its current
value is JavaScript-falsy (absent, empty string, or zero) and the
response supplies a non-empty value. -/
theorem config_frame_and_ping_learning (op : ClientOp) (cfg cfg' : Config)
    (status message org_id project_id : Option String)
    (h : pingStep cfg (.obj status message org_id project_id) = .ok cfg') :
    configAfter cfg op = cfg ∧
    cfg'.apiKey = cfg.apiKey ∧ cfg'.host = cfg.host ∧
    cfg'.organizationName = cfg.organizationName ∧
    cfg'.projectName = cfg.projectName ∧
    (cfg'.organizationId = cfg.organizationId ∨
      (optTruthy cfg.organizationId = false ∧ strTruthy org_id = true ∧
        cfg'.organizationId = org_id.map JVal.str)) ∧
    (cfg'.projectId = cfg.projectId ∨
      (optTruthy cfg.projectId = false ∧ strTruthy project_id = true ∧
        cfg'.projectId = project_id.map JVal.str)) := by
  refine ⟨by cases op <;> rfl, ?_⟩
  by_cases hst : status = some "ok"
  · simp only [pingStep, hst, ne_eq, not_true_eq_false, if_false,
      Except.ok.injEq] at h
    subst h
    rw [ite_org_update_projectId]
    split
    · next h2 =>
      have h2' : strTruthy project_id = true ∧ optTruthy cfg.projectId = false := by
        simpa using h2
      split
      · next h1 =>
        have h1' : strTruthy org_id = true ∧
            optTruthy cfg.organizationId = false := by
          simpa using h1
        exact ⟨rfl, rfl, rfl, rfl, Or.inr ⟨h1'.2, h1'.1, rfl⟩,
          Or.inr ⟨h2'.2, h2'.1, rfl⟩⟩
      · next h1 =>
        exact ⟨rfl, rfl, rfl, rfl, Or.inl rfl, Or.inr ⟨h2'.2, h2'.1, rfl⟩⟩
    · next h2 =>
      split
      · next h1 =>
        have h1' : strTruthy org_id = true ∧
            optTruthy cfg.organizationId = false := by
          simpa using h1
        exact ⟨rfl, rfl, rfl, rfl, Or.inr ⟨h1'.2, h1'.1, rfl⟩, Or.inl rfl⟩
      · next h1 =>
        exact ⟨rfl, rfl, rfl, rfl, Or.inl rfl, Or.inl rfl⟩
  · simp [pingStep, hst] at h

/-- Witness for the amended C9: a `users` call leaves the configuration
unchanged, and a successful ping against an unscoped configuration learns
the supplied `org_id`. -/
theorem config_frame_and_ping_learning_witness :
    configAfter cfgEx ClientOp.users = cfgEx ∧
    ({ cfgEx with organizationId := some (.str "org_9") } : Config).apiKey
        = cfgEx.apiKey ∧
    ({ cfgEx with organizationId := some (.str "org_9") } : Config).host
        = cfgEx.host ∧
    ({ cfgEx with organizationId := some (.str "org_9") } : Config).organizationName
        = cfgEx.organizationName ∧
    ({ cfgEx with organizationId := some (.str "org_9") } : Config).projectName
        = cfgEx.projectName ∧
    (({ cfgEx with organizationId := some (.str "org_9") } : Config).organizationId
        = cfgEx.organizationId ∨
      (optTruthy cfgEx.organizationId = false ∧ strTruthy (some "org_9") = true ∧
        ({ cfgEx with organizationId := some (.str "org_9") } : Config).organizationId
          = (some "org_9").map JVal.str)) ∧
    (({ cfgEx with organizationId := some (.str "org_9") } : Config).projectId
        = cfgEx.projectId ∨
      (optTruthy cfgEx.projectId = false ∧ strTruthy (none : Option String) = true ∧
        ({ cfgEx with organizationId := some (.str "org_9") } : Config).projectId
          = (none : Option String).map JVal.str)) :=
  config_frame_and_ping_learning ClientOp.users cfgEx
    { cfgEx with organizationId := some (.str "org_9") }
    (some "ok") none (some "org_9") none (by decide)
